import Mathlib

/-!
Verification of `test-apps/display-test-app/runAndroidEmulator.py`.

The script is an orchestrator: it boots an Android emulator, installs and
launches a test app, polls `adb logcat` for a completion marker with a bounded
retry policy, and tears everything down.  The development below is a shallow
embedding of that script:

* `Emulator` embeds the `Emulator` class (fields `__process`, `__thread`,
  `__launch_error`).  The background-thread/lock handshake of `Emulator.start`
  is modelled by its synchronised outcome: the caller blocks on the lock until
  the background thread has either stored a process handle or captured the
  launch exception, so `start` observes exactly one of those two results,
  passed in as `launch`.
* The file content rewritten by `fix_ini_path` is modelled as a list of lines,
  each line a list of characters (Python iterates the file line by line and
  `startswith` compares characters).
* The polling loop of `wait_for_first_render` is embedded as a fuel-indexed
  recursion over an environment giving the successive `logcat -d` snapshots
  and the successive `time.time()` readings; each iteration records the
  actions it performs (log read, time check, sleep) in a trace.
* `main` is embedded over a `World` of step outcomes, producing the exit code
  and the trace of orchestration actions.
-/

/-- A spawned emulator process handle (`subprocess.Popen`); only identity
matters to the claims, so handles are numbered. -/
abbrev ProcHandle : Type := Nat

/-- The `Emulator` class state: `__process`, `__thread` (with its liveness,
`none` before `start` assigns it), `__launch_error`. -/
structure Emulator where
  process : Option ProcHandle
  /-- Value `none` models a thread slot still holding the Python `None`;
  `some alive` models a thread object whose liveness check returns `alive`. -/
  thread : Option Bool
  launch_error : Option String
deriving DecidableEq

/-- Constructor of the `Emulator` class: all three slots start as `None`. -/
def Emulator.init : Emulator := ⟨none, none, none⟩

/-- Actions `Emulator.stop` can perform on the process/thread. -/
inductive EmuAct where
  | terminate
  | join
deriving DecidableEq

/-- Method `start` of the `Emulator` class.  The body spawns a background thread whose launch
attempt either produces a process handle or raises; the lock handshake makes
the caller block until exactly one of the two has happened, and that
synchronised outcome is the `launch` argument.  On success the thread keeps
running (consuming emulator output), so it is alive when `start` returns; on
failure the captured exception is re-raised to the caller. -/
def Emulator.start (s : Emulator) (launch : Except String ProcHandle) :
    Except String Unit × Emulator :=
  match launch with
  | .ok h => (.ok (), { s with process := some h, thread := some true })
  | .error e => (.error e, { s with launch_error := some e, thread := some false })

/-- Method `stop` of the `Emulator` class: when the thread is alive it
terminates the process and joins the thread.  When the thread slot is still
`None` (no `start` ever ran), the liveness attribute access raises; after a
join the thread is no longer alive. -/
def Emulator.stop (s : Emulator) : Except String (Emulator × List EmuAct) :=
  match s.thread with
  | none => .error "AttributeError: NoneType object has no attribute is_alive"
  | some alive =>
    if alive then
      match s.process with
      | none => .error "AttributeError: NoneType object has no attribute terminate"
      | some _ => .ok ({ s with thread := some false }, [.terminate, .join])
    else .ok (s, [])

/-- The characters of the path key that `fix_ini_path` looks for at the
start of each line. -/
def pathKey : List Char := "path=".toList

/-- One line of `fix_ini_path`: a line starting with the path key is
replaced by the path key followed by the avd home, a slash, the avd name and
the avd suffix with a newline; any other line is written back unchanged. -/
def fix_ini_line (avd_home avd_name : List Char) (line : List Char) : List Char :=
  if pathKey.isPrefixOf line then
    pathKey ++ avd_home ++ [Char.ofNat 47] ++ avd_name ++ ".avd\n".toList
  else line

/-- Method `fix_ini_path` over the whole file, line by line, as the source
iterates the ini file in place. -/
def fix_ini_path (avd_home avd_name : List Char) (content : List (List Char)) :
    List (List Char) :=
  content.map (fix_ini_line avd_home avd_name)

lemma isPrefixOf_self_append (l t : List Char) : l.isPrefixOf (l ++ t) = true := by
  induction l with
  | nil => simp [List.isPrefixOf]
  | cons a as ih => simp [List.isPrefixOf, ih]

lemma fix_ini_line_idem (avd_home avd_name line : List Char) :
    fix_ini_line avd_home avd_name (fix_ini_line avd_home avd_name line) =
      fix_ini_line avd_home avd_name line := by
  by_cases h : pathKey.isPrefixOf line = true
  · simp only [fix_ini_line, h, if_true]
    rw [show pathKey ++ avd_home ++ [Char.ofNat 47] ++ avd_name ++ ".avd\n".toList =
        pathKey ++ (avd_home ++ [Char.ofNat 47] ++ avd_name ++ ".avd\n".toList) by
      simp [List.append_assoc]]
    rw [isPrefixOf_self_append]
    simp [List.append_assoc]
  · simp only [fix_ini_line, h]
    simp [Bool.not_eq_true] at h
    simp [h]

/-- C8: `fix_ini_path` is idempotent, and only `path=` lines are rewritten. -/
theorem fix_ini_path_idem_and_preserves (avd_home avd_name : List Char)
    (content : List (List Char)) :
    fix_ini_path avd_home avd_name (fix_ini_path avd_home avd_name content) =
      fix_ini_path avd_home avd_name content ∧
    ∀ line : List Char, pathKey.isPrefixOf line = false →
      fix_ini_line avd_home avd_name line = line := by
  constructor
  · unfold fix_ini_path
    rw [List.map_map]
    apply List.map_congr_left
    intro a _
    exact fix_ini_line_idem avd_home avd_name a
  · intro line h
    simp [fix_ini_line, h]

/-- C8 witness: idempotence evaluated on a concrete two-line ini file. -/
theorem fix_ini_path_idem_witness :
    fix_ini_path "/home".toList "api-33".toList
        (fix_ini_path "/home".toList "api-33".toList
          ["path=old".toList, "target=x".toList]) =
      fix_ini_path "/home".toList "api-33".toList
        ["path=old".toList, "target=x".toList] ∧
    fix_ini_line "/home".toList "api-33".toList "target=x".toList =
      "target=x".toList :=
  ⟨(fix_ini_path_idem_and_preserves "/home".toList "api-33".toList
      ["path=old".toList, "target=x".toList]).1,
   (fix_ini_path_idem_and_preserves "/home".toList "api-33".toList
      ["path=old".toList, "target=x".toList]).2 "target=x".toList (by decide)⟩

/-- C5: when the caller resumes from the handshake, `start` has either a
process handle (normal return) or re-raises the captured launch error. -/
theorem emulator_start_handle_or_raises (s : Emulator)
    (launch : Except String ProcHandle) (h : s.launch_error = none) :
    ((Emulator.start s launch).1 = .ok () →
      ((Emulator.start s launch).2.process).isSome = true) ∧
    (∀ e, (Emulator.start s launch).2.launch_error = some e →
      (Emulator.start s launch).1 = .error e) := by
  cases launch with
  | ok p => refine ⟨fun _ => by simp [Emulator.start], fun e he => ?_⟩
            simp [Emulator.start, h] at he
  | error e0 =>
      refine ⟨fun hc => ?_, fun e he => ?_⟩
      · simp [Emulator.start] at hc
      · simp [Emulator.start] at he ⊢
        exact he

/-- C5 witness: a failing launch on a fresh instance re-raises its error. -/
theorem emulator_start_handle_or_raises_witness :
    Emulator.init.launch_error = none ∧
    (Emulator.start Emulator.init (.error "launch failed")).1 =
      .error "launch failed" :=
  ⟨rfl, (emulator_start_handle_or_raises Emulator.init
    (.error "launch failed") rfl).2 "launch failed" rfl⟩

/-- C2 counterexample: `stop` on a never-started instance (`__thread` is still
`None`) raises an `AttributeError` instead of being a no-op. -/
theorem emulator_stop_before_start_raises :
    Emulator.stop Emulator.init =
      .error "AttributeError: NoneType object has no attribute is_alive" := rfl

/-- C2 amended: a second `stop` after any `stop` that returned normally is a
no-op (the thread is no longer alive, or never was), but `stop` before `start`
raises, refuting the original claim. -/
theorem emulator_stop_second_noop (s s' : Emulator) (acts : List EmuAct)
    (h : Emulator.stop s = .ok (s', acts)) : Emulator.stop s' = .ok (s', []) := by
  obtain ⟨p, th, le⟩ := s
  match th, p with
  | none, _ => simp [Emulator.stop] at h
  | some true, none => simp [Emulator.stop] at h
  | some true, some q =>
      simp only [Emulator.stop, if_true] at h
      rw [Except.ok.injEq, Prod.mk.injEq] at h
      obtain ⟨h1, -⟩ := h
      rw [← h1]
      simp [Emulator.stop]
  | some false, _ =>
      simp only [Emulator.stop, Bool.false_eq_true, if_false] at h
      rw [Except.ok.injEq, Prod.mk.injEq] at h
      obtain ⟨h1, -⟩ := h
      rw [← h1]
      simp [Emulator.stop]

/-- C2 amended witness: stopping a running emulator, then stopping again. -/
theorem emulator_stop_second_noop_witness :
    Emulator.stop ⟨some 7, some true, none⟩ =
      .ok (⟨some 7, some false, none⟩, [.terminate, .join]) ∧
    Emulator.stop ⟨some 7, some false, none⟩ =
      .ok (⟨some 7, some false, none⟩, []) :=
  ⟨rfl, emulator_stop_second_noop ⟨some 7, some true, none⟩
    ⟨some 7, some false, none⟩ [.terminate, .join] rfl⟩

/-- The completion marker `wait_for_first_render` looks for in the logcat
dump. -/
def marker : String := "com.bentley.display_test_app: First render finished."

/-- Substring search: `pat` occurs (contiguously) in `s`. -/
def hasInfix (pat : List Char) : List Char → Bool
  | [] => pat.isPrefixOf []
  | a :: rest => pat.isPrefixOf (a :: rest) || hasInfix pat rest

/-- Test used by the loop on the dumped log: the find call returns a
non-negative index exactly when the marker occurs as a substring, modelled on
the character lists of the two strings. -/
def containsMarker (stdout : String) : Bool :=
  hasInfix marker.toList stdout.toList

/-- Environment of one polling run: the `stdout` of the k-th `logcat -d`
snapshot, and the value of the k-th `time.time()` call (call 0 is
`start_time`; iteration k reads snapshot k and then, if the marker is absent,
clock k+1). -/
structure PollEnv where
  snapshot : Nat → String
  clock : Nat → ℚ

/-- Observable actions of one iteration of the polling loop. -/
inductive PollAct where
  /-- a `logcat -d` snapshot read -/
  | readLog
  /-- the `time.time() - start_time >= 60.0 * wait_minutes` check -/
  | timeCheck
  /-- a `time.sleep` pause (the loop body contains none) -/
  | sleepPause
deriving DecidableEq

/-- The `while True` loop of `wait_for_first_render`, fuel-indexed because the
source loop need not terminate (`none` = fuel exhausted before the loop
returned).  `k` is the index of the next snapshot to read. -/
def waitLoop (env : PollEnv) (start_time budget : ℚ) : Nat → Nat →
    Option (Bool × List PollAct)
  | _, 0 => none
  | k, fuel + 1 =>
    if containsMarker (env.snapshot k) then some (true, [.readLog])
    else if env.clock (k + 1) - start_time ≥ budget then
      some (false, [.readLog, .timeCheck])
    else
      (waitLoop env start_time budget (k + 1) fuel).map
        fun r => (r.1, [PollAct.readLog, .timeCheck] ++ r.2)

/-- Function `wait_for_first_render`: records the start time (clock call 0)
and polls with a budget of 60 seconds times `wait_minutes`. -/
def wait_for_first_render (env : PollEnv) (wait_minutes : ℚ) (fuel : Nat) :
    Option (Bool × List PollAct) :=
  waitLoop env (env.clock 0) (60 * wait_minutes) 0 fuel

/-- The wait budget of attempt `i` of `run_app`: `i * 2.0 + 1.0` minutes. -/
def attempt_minutes (i : Nat) : ℚ := i * 2 + 1

/-- Observable actions of `run_app`. -/
inductive AppAct where
  /-- one `start_app()` call (logcat clear + activity start) -/
  | startApp
  /-- an action of `wait_for_first_render` -/
  | poll (a : PollAct)
deriving DecidableEq

/-- Environment of `run_app`: whether `start_app()` succeeds in attempt `i`,
and the polling environment seen by attempt `i` (each attempt clears the log
and reads fresh snapshots). -/
structure AppEnv where
  startAppOk : Nat → Bool
  polls : Nat → PollEnv

/-- The `for i in range(2)` loop of `run_app`, over the remaining attempt
indices.  A failing `start_app` raises out of `run_app` (`.error`); a
successful poll returns `True` immediately; falling off the loop returns
`False`. -/
def run_app_loop (ae : AppEnv) (fuel : Nat) :
    List Nat → Option (Except String Bool × List AppAct)
  | [] => some (.ok false, [])
  | i :: rest =>
    if ae.startAppOk i then
      match wait_for_first_render (ae.polls i) (attempt_minutes i) fuel with
      | none => none
      | some (true, tr) => some (.ok true, .startApp :: tr.map .poll)
      | some (false, tr) =>
        (run_app_loop ae fuel rest).map
          fun r => (r.1, .startApp :: tr.map .poll ++ r.2)
    else some (.error "Error starting display-test-app!", [.startApp])

/-- Function `run_app`: two attempts, with escalating budgets. -/
def run_app (ae : AppEnv) (fuel : Nat) : Option (Except String Bool × List AppAct) :=
  run_app_loop ae fuel (List.range 2)

/-- Any normal return of the polling loop performed at least one snapshot
read, so its trace is nonempty. -/
lemma waitLoop_trace_ne_nil (env : PollEnv) (st bu : ℚ) (k fuel : Nat)
    (b : Bool) (tr : List PollAct)
    (h : waitLoop env st bu k fuel = some (b, tr)) : tr ≠ [] := by
  match fuel with
  | 0 => simp [waitLoop] at h
  | n + 1 =>
    rw [waitLoop] at h
    split at h
    · rw [Option.some.injEq, Prod.mk.injEq] at h
      rw [← h.2]; simp
    · split at h
      · rw [Option.some.injEq, Prod.mk.injEq] at h
        rw [← h.2]; simp
      · match hw : waitLoop env st bu (k + 1) n with
        | none => rw [hw] at h; simp at h
        | some r =>
          rw [hw, show Option.map
              (fun r => (r.1, [PollAct.readLog, PollAct.timeCheck] ++ r.2))
              (some r) = some (r.1, [PollAct.readLog, PollAct.timeCheck] ++ r.2)
            from rfl] at h
          rw [Option.some.injEq, Prod.mk.injEq] at h
          rw [← h.2]; simp

/-- Every action the polling loop records is a snapshot read or a time check:
the loop body contains no `time.sleep`. -/
lemma waitLoop_no_sleep (env : PollEnv) (st bu : ℚ) :
    ∀ (fuel k : Nat) (b : Bool) (tr : List PollAct),
      waitLoop env st bu k fuel = some (b, tr) →
      ∀ a ∈ tr, a = PollAct.readLog ∨ a = PollAct.timeCheck := by
  intro fuel
  induction fuel with
  | zero => intro k b tr h; simp [waitLoop] at h
  | succ n ih =>
    intro k b tr h
    rw [waitLoop] at h
    split at h
    · rw [Option.some.injEq, Prod.mk.injEq] at h
      rw [← h.2]
      intro a ha
      simp at ha
      exact Or.inl ha
    · split at h
      · rw [Option.some.injEq, Prod.mk.injEq] at h
        rw [← h.2]
        intro a ha
        simp at ha
        exact ha
      · match hw : waitLoop env st bu (k + 1) n with
        | none => rw [hw] at h; simp at h
        | some r =>
          rw [hw, show Option.map
              (fun r => (r.1, [PollAct.readLog, PollAct.timeCheck] ++ r.2))
              (some r) = some (r.1, [PollAct.readLog, PollAct.timeCheck] ++ r.2)
            from rfl] at h
          rw [Option.some.injEq, Prod.mk.injEq] at h
          rw [← h.2]
          intro a ha
          simp only [List.cons_append, List.nil_append, List.mem_cons] at ha
          rcases ha with ha | ha | ha
          · exact Or.inl ha
          · exact Or.inr ha
          · exact ih (k + 1) r.1 r.2 (by rw [hw]) a ha

/-- C3 counterexample environment: empty first snapshot, marker in the
second, a clock that never advances. -/
def envNoPause : PollEnv := ⟨fun k => if k = 0 then "" else marker, fun _ => 0⟩

/-- Evaluation of the loop on `envNoPause`: the marker is found at the
second snapshot, after a read, a time check, and another read. -/
lemma envNoPause_eval :
    wait_for_first_render envNoPause 1 2 =
      some (true, [.readLog, .timeCheck, .readLog]) := by
  have h0 : containsMarker (envNoPause.snapshot 0) = false := by decide
  have h1 : containsMarker (envNoPause.snapshot 1) = true := by decide
  have ht : envNoPause.clock 1 - envNoPause.clock 0 < 60 := by
    show ((0:ℚ) - 0 < 60); norm_num
  simp [wait_for_first_render, waitLoop, h0, h1, ht]

/-- C3 counterexample: a run of `wait_for_first_render` performs two
successive log-dump reads with no sleep between them — its trace is read,
time-check, read, and contains no pause at all. -/
theorem wait_no_pause_between_reads :
    wait_for_first_render envNoPause 1 2 =
      some (true, [.readLog, .timeCheck, .readLog]) ∧
    PollAct.sleepPause ∉ [PollAct.readLog, .timeCheck, .readLog] :=
  ⟨envNoPause_eval, by decide⟩

/-- C3 amended: consecutive snapshot reads are not separated by any pause;
the loop busy-polls, every recorded action being a log read or a time
check, never a sleep. -/
theorem wait_never_sleeps (env : PollEnv) (wait_minutes : ℚ) (fuel : Nat)
    (b : Bool) (tr : List PollAct)
    (h : wait_for_first_render env wait_minutes fuel = some (b, tr)) :
    PollAct.sleepPause ∉ tr := by
  intro hmem
  rcases waitLoop_no_sleep env (env.clock 0) (60 * wait_minutes) fuel 0 b tr h
      PollAct.sleepPause hmem with hc | hc <;> exact PollAct.noConfusion hc

/-- C3 amended witness: the concrete two-read run sleeps nowhere. -/
theorem wait_never_sleeps_witness :
    PollAct.sleepPause ∉ [PollAct.readLog, .timeCheck, .readLog] :=
  wait_never_sleeps envNoPause 1 2 true [.readLog, .timeCheck, .readLog]
    envNoPause_eval

/-- C10: the marker check precedes the elapsed-time check, so a marker
already present in the first snapshot yields `True` immediately, for any
budget — including a zero or negative one. -/
theorem wait_marker_first_snapshot (env : PollEnv) (wait_minutes : ℚ)
    (fuel : Nat) (h : containsMarker (env.snapshot 0) = true) :
    wait_for_first_render env wait_minutes (fuel + 1) =
      some (true, [.readLog]) := by
  rw [wait_for_first_render, waitLoop, if_pos h]

/-- C10 witness: marker in the first snapshot, zero budget, clock far past
any budget — still an immediate success. -/
theorem wait_marker_first_snapshot_witness :
    containsMarker (PollEnv.snapshot ⟨fun _ => marker, fun k => 1000 * k⟩ 0) = true ∧
    wait_for_first_render ⟨fun _ => marker, fun k => 1000 * k⟩ 0 1 =
      some (true, [.readLog]) :=
  ⟨by decide, wait_marker_first_snapshot ⟨fun _ => marker, fun k => 1000 * k⟩ 0 0
    (by decide)⟩

/-- C7: the two attempts of `run_app` use budgets of exactly 1 minute and 3
minutes, and `wait_for_first_render` times out exactly when the elapsed time
reaches 60 seconds times the given minutes: with no marker in the first
snapshot, the loop returns `False` at its first iteration iff
`time.time() - start_time >= 60.0 * wait_minutes` there. -/
theorem run_app_budgets_escalate_and_timeout :
    attempt_minutes 0 = 1 ∧ attempt_minutes 1 = 3 ∧
    ∀ (env : PollEnv) (wait_minutes : ℚ) (fuel : Nat),
      containsMarker (env.snapshot 0) = false →
      (wait_for_first_render env wait_minutes (fuel + 1) =
          some (false, [.readLog, .timeCheck]) ↔
        env.clock 1 - env.clock 0 ≥ 60 * wait_minutes) := by
  refine ⟨by norm_num [attempt_minutes], by norm_num [attempt_minutes], ?_⟩
  intro env wait_minutes fuel hm
  constructor
  · intro h
    by_contra ht
    rw [wait_for_first_render, waitLoop] at h
    rw [if_neg (by simp [hm]), if_neg (by exact_mod_cast ht)] at h
    match hw : waitLoop env (env.clock 0) (60 * wait_minutes) (0 + 1) fuel with
    | none => rw [hw] at h; simp at h
    | some r =>
      rw [hw, show Option.map
          (fun r => (r.1, [PollAct.readLog, PollAct.timeCheck] ++ r.2))
          (some r) = some (r.1, [PollAct.readLog, PollAct.timeCheck] ++ r.2)
        from rfl] at h
      rw [Option.some.injEq, Prod.mk.injEq] at h
      have hnil : r.2 = [] := by
        have := h.2
        simp only [List.cons_append, List.nil_append, List.cons.injEq] at this
        exact this.2.2
      exact waitLoop_trace_ne_nil env (env.clock 0) (60 * wait_minutes)
        (0 + 1) fuel r.1 r.2 (by rw [hw]) hnil
  · intro ht
    rw [wait_for_first_render, waitLoop, if_neg (by simp [hm]), if_pos ht]

/-- C7 witness: first snapshot without the marker, clock already 180 seconds
past the start: the 3-minute budget times out at once, and the 1-and-3-minute
budgets evaluate. -/
theorem run_app_budgets_escalate_and_timeout_witness :
    containsMarker (PollEnv.snapshot ⟨fun _ => "", fun k => 180 * k⟩ 0) = false ∧
    wait_for_first_render ⟨fun _ => "", fun k => 180 * k⟩ 3 1 =
      some (false, [.readLog, .timeCheck]) :=
  ⟨by decide,
    (run_app_budgets_escalate_and_timeout.2.2 ⟨fun _ => "", fun k => 180 * k⟩ 3 0
      (by decide)).mpr (by norm_num)⟩

/-- If no snapshot ever holds the marker and the clock eventually exceeds the
budget (within the available fuel), the polling loop returns `False`. -/
lemma waitLoop_timeout_of_no_marker (env : PollEnv) (st bu : ℚ) :
    ∀ (fuel k : Nat),
      (∀ i, containsMarker (env.snapshot i) = false) →
      (∃ j, j < fuel ∧ env.clock (k + j + 1) - st ≥ bu) →
      ∃ tr, waitLoop env st bu k fuel = some (false, tr) := by
  intro fuel
  induction fuel with
  | zero =>
    intro k _ hex
    obtain ⟨j, hj, -⟩ := hex
    exact absurd hj (Nat.not_lt_zero j)
  | succ n ih =>
    intro k hm hex
    obtain ⟨j, hj, hge⟩ := hex
    by_cases ht : env.clock (k + 1) - st ≥ bu
    · exact ⟨[.readLog, .timeCheck],
        by rw [waitLoop, if_neg (by simp [hm k]), if_pos ht]⟩
    · match j with
      | 0 => exact absurd hge ht
      | j' + 1 =>
        obtain ⟨tr', htr'⟩ := ih (k + 1) hm ⟨j', by omega, by
          have harith : k + 1 + j' + 1 = k + (j' + 1) + 1 := by omega
          rw [harith]; exact hge⟩
        refine ⟨[.readLog, .timeCheck] ++ tr', ?_⟩
        rw [waitLoop, if_neg (by simp [hm k]), if_neg ht, htr']
        rfl

/-- Poll actions embedded into `run_app` traces are never a launch. -/
lemma map_poll_count_startApp (tr : List PollAct) :
    (tr.map AppAct.poll).count AppAct.startApp = 0 := by
  rw [List.count_eq_zero]
  intro hmem
  rcases List.mem_map.mp hmem with ⟨a, -, hEq⟩
  exact AppAct.noConfusion hEq

/-- With a marker-free log stream and clocks that eventually exceed both
budgets, `run_app` performs exactly two launch+poll cycles and returns
`False`. -/
lemma run_app_false_of_never_marker (ae : AppEnv) (fuel : Nat)
    (hs : ∀ i, ae.startAppOk i = true)
    (hm : ∀ i k, containsMarker ((ae.polls i).snapshot k) = false)
    (ht : ∀ i, i < 2 → ∃ j, j < fuel ∧
      (ae.polls i).clock (j + 1) - (ae.polls i).clock 0 ≥ 60 * attempt_minutes i) :
    ∃ (tr0 tr1 : List PollAct), run_app ae fuel =
      some (.ok false,
        AppAct.startApp :: tr0.map AppAct.poll ++
          (AppAct.startApp :: tr1.map AppAct.poll)) ∧
      (AppAct.startApp :: tr0.map AppAct.poll ++
          (AppAct.startApp :: tr1.map AppAct.poll)).count AppAct.startApp = 2 := by
  have fix : ∀ i, (∃ j, j < fuel ∧
      (ae.polls i).clock (j + 1) - (ae.polls i).clock 0 ≥ 60 * attempt_minutes i) →
      ∃ j, j < fuel ∧
        (ae.polls i).clock (0 + j + 1) - (ae.polls i).clock 0 ≥ 60 * attempt_minutes i := by
    intro i hex
    obtain ⟨j, hj, hge⟩ := hex
    exact ⟨j, hj, by rw [show 0 + j + 1 = j + 1 from by omega]; exact hge⟩
  obtain ⟨tr0, h0⟩ := waitLoop_timeout_of_no_marker (ae.polls 0)
    ((ae.polls 0).clock 0) (60 * attempt_minutes 0) fuel 0 (hm 0)
    (fix 0 (ht 0 (by omega)))
  obtain ⟨tr1, h1⟩ := waitLoop_timeout_of_no_marker (ae.polls 1)
    ((ae.polls 1).clock 0) (60 * attempt_minutes 1) fuel 0 (hm 1)
    (fix 1 (ht 1 (by omega)))
  have e0 : wait_for_first_render (ae.polls 0) (attempt_minutes 0) fuel =
      some (false, tr0) := h0
  have e1 : wait_for_first_render (ae.polls 1) (attempt_minutes 1) fuel =
      some (false, tr1) := h1
  refine ⟨tr0, tr1, ?_, ?_⟩
  · rw [run_app, show List.range 2 = [0, 1] from rfl]
    rw [run_app_loop, if_pos (hs 0), e0]
    rw [run_app_loop, if_pos (hs 1), e1]
    rw [run_app_loop]
    simp
  · simp [List.count_append, List.count_cons, map_poll_count_startApp]

/-- Function `should_download`: all five download-mode keys are present. -/
def should_download (env_json : String → Option String) : Bool :=
  (env_json "IMJS_OIDC_CLIENT_ID").isSome &&
    (env_json "IMJS_OIDC_SCOPE").isSome &&
    (env_json "IMJS_OIDC_CLIENT_SECRET").isSome &&
    (env_json "IMJS_ITWIN_ID").isSome &&
    (env_json "IMJS_IMODEL_ID").isSome

/-- Function `get_bim_file`: looks up the standalone-filename key. -/
def get_bim_file (env_json : String → Option String) : Option String :=
  env_json "IMJS_STANDALONE_FILENAME"

/-- The message of the configuration error `main` raises when neither
standalone nor download mode is configured. -/
def configErrorMsg : String :=
  "Environment not configured for standalone or download mode!"

/-- Observable actions of `main` (each completed orchestration step, the
`log(e)` of a caught exception, and the teardown calls). -/
inductive MainAct where
  | downloadUpacks
  | verifyPaths
  | buildTestApp
  | loadEnvJson
  | fixIni
  | emulatorLaunch
  | waitBoot
  | installApk
  | copyImodel (bim_file : String)
  | app (a : AppAct)
  | errorLogged (msg : String)
  | stopEmulator
  | stopAdb
deriving DecidableEq

/-- The outcomes of the steps `main` sequences, plus the environment of
`run_app`.  Each `Ok` flag tells whether the corresponding external step
succeeds or raises; `envJson` is `none` when `load_env_json` raises, else the
parsed dictionary. -/
structure World where
  isDarwin : Bool
  downloadOk : Bool
  verifyOk : Bool
  buildOk : Bool
  envJson : Option (String → Option String)
  fixOk : Bool
  emuStartOk : Bool
  bootOk : Bool
  installOk : Bool
  copyOk : Bool
  appEnv : AppEnv

/-- The unconditional teardown of `main`: `stop_emulator(emulator)` stops the
emulator only when `start_emulator` returned (else `emulator` is still
`None` and the call is a no-op), then `stop_adb()`. -/
def teardown (emulatorPresent : Bool) : List MainAct :=
  (if emulatorPresent then [MainAct.stopEmulator] else []) ++ [MainAct.stopAdb]

/-- The `try` block of `main`: returns the outcome (`.ok b` with `b` the
`run_app()` result reached, `.error e` for a raised exception), whether the
`emulator` variable was assigned (it is assigned only when `start_emulator`
returned, i.e. after a successful boot wait), and the trace of steps run,
`none` if `run_app` never terminates. -/
def mainTry (w : World) (fuel : Nat) :
    Option (Except String Bool × Bool × List MainAct) :=
  if w.isDarwin = false then
    some (.error "This script only works on macOS!", false, [])
  else if w.downloadOk = false then
    some (.error "Error downloading upack!", false, [.downloadUpacks])
  else if w.verifyOk = false then
    some (.error "Path verification failed!", false,
      [.downloadUpacks, .verifyPaths])
  else if w.buildOk = false then
    some (.error "Error building Android test app!", false,
      [.downloadUpacks, .verifyPaths, .buildTestApp])
  else
    match w.envJson with
    | none =>
      some (.error "env.json does not contain an object!", false,
        [.downloadUpacks, .verifyPaths, .buildTestApp, .loadEnvJson])
    | some env_json =>
      if w.fixOk = false then
        some (.error "Error fixing ini path!", false,
          [.downloadUpacks, .verifyPaths, .buildTestApp, .loadEnvJson, .fixIni])
      else if w.emuStartOk = false then
        some (.error "Emulator launch failed!", false,
          [.downloadUpacks, .verifyPaths, .buildTestApp, .loadEnvJson, .fixIni,
            .emulatorLaunch])
      else if w.bootOk = false then
        some (.error "Error waiting for emulator to boot!", false,
          [.downloadUpacks, .verifyPaths, .buildTestApp, .loadEnvJson, .fixIni,
            .emulatorLaunch, .waitBoot])
      else if (get_bim_file env_json) = none ∧ should_download env_json = false then
        some (.error configErrorMsg, true,
          [.downloadUpacks, .verifyPaths, .buildTestApp, .loadEnvJson, .fixIni,
            .emulatorLaunch, .waitBoot])
      else if w.installOk = false then
        some (.error "Error installing APK!", true,
          [.downloadUpacks, .verifyPaths, .buildTestApp, .loadEnvJson, .fixIni,
            .emulatorLaunch, .waitBoot, .installApk])
      else
        match get_bim_file env_json with
        | some bim_file =>
          if w.copyOk = false then
            some (.error ("Error copying " ++ bim_file ++ " to emulator!"), true,
              [.downloadUpacks, .verifyPaths, .buildTestApp, .loadEnvJson, .fixIni,
                .emulatorLaunch, .waitBoot, .installApk, .copyImodel bim_file])
          else
            match run_app w.appEnv fuel with
            | none => none
            | some (r, atr) =>
              some (r, true,
                [.downloadUpacks, .verifyPaths, .buildTestApp, .loadEnvJson, .fixIni,
                  .emulatorLaunch, .waitBoot, .installApk, .copyImodel bim_file] ++
                  atr.map .app)
        | none =>
          match run_app w.appEnv fuel with
          | none => none
          | some (r, atr) =>
            some (r, true,
              [.downloadUpacks, .verifyPaths, .buildTestApp, .loadEnvJson, .fixIni,
                .emulatorLaunch, .waitBoot, .installApk] ++ atr.map .app)

/-- Function `main` of the script (named `main_program` because `main` is
reserved in Lean): runs the `try` block; a caught exception is logged; the
exit code is 0 only when `run_app` returned `True`; teardown always runs
before the final exit. -/
def main_program (w : World) (fuel : Nat) : Option (Nat × List MainAct) :=
  match mainTry w fuel with
  | none => none
  | some (.ok b, emulatorPresent, tr) =>
    some (if b then 0 else 1, tr ++ teardown emulatorPresent)
  | some (.error e, emulatorPresent, tr) =>
    some (1, tr ++ [.errorLogged e] ++ teardown emulatorPresent)

/-- Observable actions of `stop_adb`. -/
inductive AdbAct where
  | sysCmd (command : String)
  | logged (msg : String)
deriving DecidableEq

/-- Function `run_command`: runs the command through the system shell (its
exit code supplied by `sysExit`) and raises `error` on a non-zero exit. -/
def run_command (sysExit : String → Int) (command error : String) :
    Except String Unit × List AdbAct :=
  if sysExit command ≠ 0 then (.error error, [.sysCmd command])
  else (.ok (), [.sysCmd command])

/-- The kill-server call in `stop_adb`: `run_command` has two required
positional parameters, `command` and `error`, but the call supplies only the
command, so Python raises a `TypeError` at the call site, before the body of
`run_command` (and hence the system call) ever runs. -/
def call_run_command_missing_arg (sysExit : String → Int) (command : String) :
    Except String Unit × List AdbAct :=
  (.error "TypeError: run_command missing 1 required positional argument: error",
    [])

/-- Function `stop_adb`: logs, attempts the kill-server `run_command` call
(which raises `TypeError`, see `call_run_command_missing_arg`), and the bare
except clause catches anything and logs the fallback line. -/
def stop_adb (sysExit : String → Int) (adb_cmd : String) :
    Except String Unit × List AdbAct :=
  let attempt := call_run_command_missing_arg sysExit (adb_cmd ++ " kill-server")
  match attempt with
  | (.ok _, acts) =>
    (.ok (), [.logged "Stopping the adb daemon"] ++ acts ++
      [.logged "adb daemon stopped."])
  | (.error _, acts) =>
    (.ok (), [.logged "Stopping the adb daemon"] ++ acts ++
      [.logged "adb daemon not running."])

/-- C6: `stop_adb` never propagates an exception, never actually executes any
system command (the kill-server command in particular), and always logs the
fallback line — for every exit-code oracle and every adb command string. -/
theorem stop_adb_typeerror_fallback (sysExit : String → Int) (adb_cmd : String) :
    stop_adb sysExit adb_cmd =
      (.ok (), [.logged "Stopping the adb daemon",
        .logged "adb daemon not running."]) ∧
    ∀ c, AdbAct.sysCmd c ∉ (stop_adb sysExit adb_cmd).2 := by
  refine ⟨rfl, ?_⟩
  intro c hmem
  simp [stop_adb, call_run_command_missing_arg] at hmem

/-- C6 witness: concrete oracle (every command would succeed) and the real
adb command prefix — the kill-server still never runs. -/
theorem stop_adb_typeerror_fallback_witness :
    stop_adb (fun _ => 0) "adb -e" =
      (.ok (), [.logged "Stopping the adb daemon",
        .logged "adb daemon not running."]) :=
  (stop_adb_typeerror_fallback (fun _ => 0) "adb -e").1

/-- A session configuration lacking the standalone key and all download-mode
keys, with every external step healthy. -/
def worldNoConfig : World :=
  { isDarwin := true, downloadOk := true, verifyOk := true, buildOk := true,
    envJson := some (fun _ => none), fixOk := true, emuStartOk := true,
    bootOk := true, installOk := true, copyOk := true,
    appEnv := ⟨fun _ => true, fun _ => ⟨fun _ => "", fun _ => 0⟩⟩ }

/-- C1 counterexample: with a configuration lacking both the standalone key
and the download keys, `main` raises the configuration error only AFTER the
emulator has been launched and its boot awaited — the trace of the failing
run contains the emulator launch and the boot wait, refuting "before any
device interaction occurs". -/
theorem config_error_after_device_interaction :
    get_bim_file (fun _ => none) = none ∧
    should_download (fun _ => none) = false ∧
    main_program worldNoConfig 1 =
      some (1, [.downloadUpacks, .verifyPaths, .buildTestApp, .loadEnvJson,
        .fixIni, .emulatorLaunch, .waitBoot, .errorLogged configErrorMsg,
        .stopEmulator, .stopAdb]) ∧
    MainAct.emulatorLaunch ∈ [MainAct.downloadUpacks, .verifyPaths,
      .buildTestApp, .loadEnvJson, .fixIni, .emulatorLaunch, .waitBoot,
      .errorLogged configErrorMsg, .stopEmulator, .stopAdb] ∧
    MainAct.waitBoot ∈ [MainAct.downloadUpacks, .verifyPaths, .buildTestApp,
      .loadEnvJson, .fixIni, .emulatorLaunch, .waitBoot,
      .errorLogged configErrorMsg, .stopEmulator, .stopAdb] := by
  refine ⟨rfl, rfl, rfl, ?_, ?_⟩ <;> decide

/-- C1 amended: for every such configuration the session still fails with the
configuration error and a non-zero exit, but only after the emulator start
and boot wait; no APK install, no imodel copy and no app launch occur, and
both teardown steps still run. -/
theorem config_error_fails_before_install (w : World) (fuel : Nat)
    (env_json : String → Option String)
    (h1 : w.isDarwin = true) (h2 : w.downloadOk = true) (h3 : w.verifyOk = true)
    (h4 : w.buildOk = true) (h5 : w.envJson = some env_json)
    (h6 : w.fixOk = true) (h7 : w.emuStartOk = true) (h8 : w.bootOk = true)
    (h9 : get_bim_file env_json = none)
    (h10 : should_download env_json = false) :
    main_program w fuel =
      some (1, [.downloadUpacks, .verifyPaths, .buildTestApp, .loadEnvJson,
        .fixIni, .emulatorLaunch, .waitBoot, .errorLogged configErrorMsg,
        .stopEmulator, .stopAdb]) := by
  have hmt : mainTry w fuel = some (.error configErrorMsg, true,
      [.downloadUpacks, .verifyPaths, .buildTestApp, .loadEnvJson, .fixIni,
        .emulatorLaunch, .waitBoot]) := by
    rw [mainTry, if_neg (by simp [h1]), if_neg (by simp [h2]),
      if_neg (by simp [h3]), if_neg (by simp [h4])]
    simp only [h5]
    rw [if_neg (by simp [h6]), if_neg (by simp [h7]), if_neg (by simp [h8]),
      if_pos ⟨h9, h10⟩]
  rw [main_program, hmt]
  rfl

/-- C1 amended witness: the concrete key-less configuration. -/
theorem config_error_fails_before_install_witness :
    worldNoConfig.isDarwin = true ∧
    get_bim_file (fun _ => none) = none ∧
    should_download (fun _ => none) = false ∧
    main_program worldNoConfig 3 =
      some (1, [.downloadUpacks, .verifyPaths, .buildTestApp, .loadEnvJson,
        .fixIni, .emulatorLaunch, .waitBoot, .errorLogged configErrorMsg,
        .stopEmulator, .stopAdb]) :=
  ⟨rfl, rfl, rfl,
    config_error_fails_before_install worldNoConfig 3 (fun _ => none)
      rfl rfl rfl rfl rfl rfl rfl rfl rfl rfl⟩

/-- C4: with a log stream that never contains the marker (and clocks that do
exceed the budgets, so both polls time out), `run_app` performs exactly two
launch+poll cycles and returns `False`, and `main` still performs both
teardown steps and exits with status 1. -/
theorem never_marker_two_cycles_teardown (w : World) (fuel : Nat)
    (env_json : String → Option String)
    (h1 : w.isDarwin = true) (h2 : w.downloadOk = true) (h3 : w.verifyOk = true)
    (h4 : w.buildOk = true) (h5 : w.envJson = some env_json)
    (h6 : w.fixOk = true) (h7 : w.emuStartOk = true) (h8 : w.bootOk = true)
    (hcfg : match get_bim_file env_json with
      | some _ => w.copyOk = true
      | none => should_download env_json = true)
    (h9 : w.installOk = true)
    (hs : ∀ i, w.appEnv.startAppOk i = true)
    (hm : ∀ i k, containsMarker ((w.appEnv.polls i).snapshot k) = false)
    (htime : ∀ i, i < 2 → ∃ j, j < fuel ∧
      (w.appEnv.polls i).clock (j + 1) - (w.appEnv.polls i).clock 0 ≥
        60 * attempt_minutes i) :
    ∃ (tr : List AppAct), run_app w.appEnv fuel = some (.ok false, tr) ∧
      tr.count AppAct.startApp = 2 ∧
      ∃ (mtr : List MainAct), main_program w fuel = some (1, mtr) ∧
        MainAct.stopEmulator ∈ mtr ∧ MainAct.stopAdb ∈ mtr := by
  obtain ⟨tr0, tr1, hra, hcount⟩ :=
    run_app_false_of_never_marker w.appEnv fuel hs hm htime
  refine ⟨AppAct.startApp :: tr0.map AppAct.poll ++
    (AppAct.startApp :: tr1.map AppAct.poll), hra, hcount, ?_⟩
  cases hbim : get_bim_file env_json with
  | none =>
    simp only [hbim] at hcfg
    have hmt : mainTry w fuel = some (.ok false, true,
        [.downloadUpacks, .verifyPaths, .buildTestApp, .loadEnvJson, .fixIni,
          .emulatorLaunch, .waitBoot, .installApk] ++
          (AppAct.startApp :: tr0.map AppAct.poll ++
            (AppAct.startApp :: tr1.map AppAct.poll)).map MainAct.app) := by
      rw [mainTry, if_neg (by simp [h1]), if_neg (by simp [h2]),
        if_neg (by simp [h3]), if_neg (by simp [h4])]
      simp only [h5]
      rw [if_neg (by simp [h6]), if_neg (by simp [h7]), if_neg (by simp [h8]),
        if_neg (by simp [hcfg]), if_neg (by simp [h9])]
      simp only [hbim]
      rw [hra]
    refine ⟨_, by rw [main_program, hmt]; rfl, ?_, ?_⟩ <;> simp [teardown]
  | some bim_file =>
    simp only [hbim] at hcfg
    have hmt : mainTry w fuel = some (.ok false, true,
        [.downloadUpacks, .verifyPaths, .buildTestApp, .loadEnvJson, .fixIni,
          .emulatorLaunch, .waitBoot, .installApk, .copyImodel bim_file] ++
          (AppAct.startApp :: tr0.map AppAct.poll ++
            (AppAct.startApp :: tr1.map AppAct.poll)).map MainAct.app) := by
      rw [mainTry, if_neg (by simp [h1]), if_neg (by simp [h2]),
        if_neg (by simp [h3]), if_neg (by simp [h4])]
      simp only [h5]
      rw [if_neg (by simp [h6]), if_neg (by simp [h7]), if_neg (by simp [h8]),
        if_neg (by simp [hbim]), if_neg (by simp [h9])]
      simp only [hbim]
      rw [if_neg (by simp [hcfg]), hra]
    refine ⟨_, by rw [main_program, hmt]; rfl, ?_, ?_⟩ <;> simp [teardown]

/-- A download-mode configuration: the five OIDC/iTwin/iModel keys present,
no standalone file name. -/
def downloadJson : String → Option String :=
  fun k => if k = "IMJS_STANDALONE_FILENAME" then none else some "set"

/-- A polling environment whose log never contains the marker and whose
clock jumps 200 seconds per reading. -/
def pollNeverMarker : PollEnv := ⟨fun _ => "", fun j => 200 * j⟩

/-- A world with healthy steps, download-mode configuration and marker-free
logs. -/
def worldNeverMarker : World :=
  { isDarwin := true, downloadOk := true, verifyOk := true, buildOk := true,
    envJson := some downloadJson, fixOk := true, emuStartOk := true,
    bootOk := true, installOk := true, copyOk := true,
    appEnv := ⟨fun _ => true, fun _ => pollNeverMarker⟩ }

/-- C4 witness: the concrete never-marker world satisfies every hypothesis
and so gets two cycles, a `False` result and full teardown. -/
theorem never_marker_two_cycles_teardown_witness :
    worldNeverMarker.envJson = some downloadJson ∧
    get_bim_file downloadJson = none ∧
    should_download downloadJson = true ∧
    (∀ i k, containsMarker ((worldNeverMarker.appEnv.polls i).snapshot k) = false) ∧
    ∃ (tr : List AppAct), run_app worldNeverMarker.appEnv 1 = some (.ok false, tr) ∧
      tr.count AppAct.startApp = 2 ∧
      ∃ (mtr : List MainAct), main_program worldNeverMarker 1 = some (1, mtr) ∧
        MainAct.stopEmulator ∈ mtr ∧ MainAct.stopAdb ∈ mtr := by
  refine ⟨rfl, by decide, by decide,
    fun i k => show containsMarker "" = false by decide, ?_⟩
  refine never_marker_two_cycles_teardown worldNeverMarker 1 downloadJson
    rfl rfl rfl rfl rfl rfl rfl rfl (show should_download downloadJson = true by decide)
    rfl (fun i => rfl) (fun i k => show containsMarker "" = false by decide) ?_
  intro i hi
  refine ⟨0, by omega, ?_⟩
  simp only [worldNeverMarker, pollNeverMarker, attempt_minutes]
  interval_cases i <;> (push_cast; norm_num)

lemma bool_true_of_not_false {b : Bool} (h : ¬ b = false) : b = true := by
  cases b
  · exact absurd rfl h
  · rfl

/-- The `try` block reaches `run_app` and returns its boolean exactly when
every earlier step succeeds and the configuration is accepted. -/
lemma mainTry_ok_iff (w : World) (fuel : Nat) (b : Bool) :
    (∃ emu tr, mainTry w fuel = some (.ok b, emu, tr)) ↔
      (w.isDarwin = true ∧ w.downloadOk = true ∧ w.verifyOk = true ∧
        w.buildOk = true ∧ w.fixOk = true ∧ w.emuStartOk = true ∧
        w.bootOk = true ∧ w.installOk = true ∧
        (∃ env_json, w.envJson = some env_json ∧
          (match get_bim_file env_json with
           | some _ => w.copyOk = true
           | none => should_download env_json = true)) ∧
        ∃ atr, run_app w.appEnv fuel = some (.ok b, atr)) := by
  constructor
  · rintro ⟨emu, tr, h⟩
    rw [mainTry] at h
    by_cases h1 : w.isDarwin = false
    · rw [if_pos h1] at h; simp at h
    rw [if_neg h1] at h
    by_cases h2 : w.downloadOk = false
    · rw [if_pos h2] at h; simp at h
    rw [if_neg h2] at h
    by_cases h3 : w.verifyOk = false
    · rw [if_pos h3] at h; simp at h
    rw [if_neg h3] at h
    by_cases h4 : w.buildOk = false
    · rw [if_pos h4] at h; simp at h
    rw [if_neg h4] at h
    cases hj : w.envJson with
    | none => rw [hj] at h; simp at h
    | some env_json =>
    simp only [hj] at h
    by_cases h6 : w.fixOk = false
    · rw [if_pos h6] at h; simp at h
    rw [if_neg h6] at h
    by_cases h7 : w.emuStartOk = false
    · rw [if_pos h7] at h; simp at h
    rw [if_neg h7] at h
    by_cases h8 : w.bootOk = false
    · rw [if_pos h8] at h; simp at h
    rw [if_neg h8] at h
    by_cases hc : (get_bim_file env_json = none ∧ should_download env_json = false)
    · rw [if_pos hc] at h; simp at h
    rw [if_neg hc] at h
    by_cases h9 : w.installOk = false
    · rw [if_pos h9] at h; simp at h
    rw [if_neg h9] at h
    refine ⟨bool_true_of_not_false h1, bool_true_of_not_false h2,
      bool_true_of_not_false h3, bool_true_of_not_false h4,
      bool_true_of_not_false h6, bool_true_of_not_false h7,
      bool_true_of_not_false h8, bool_true_of_not_false h9, ?_⟩
    cases hbim : get_bim_file env_json with
    | none =>
      simp only [hbim] at h
      have hsd : should_download env_json = true := by
        cases hsd0 : should_download env_json
        · exact absurd ⟨hbim, hsd0⟩ hc
        · rfl
      cases hra : run_app w.appEnv fuel with
      | none => rw [hra] at h; simp at h
      | some r =>
        obtain ⟨rr, atr⟩ := r
        simp only [hra] at h
        rw [Option.some.injEq, Prod.mk.injEq] at h
        refine ⟨⟨env_json, rfl, by simp only [hbim]; exact hsd⟩, atr, ?_⟩
        rw [h.1]
    | some bim_file =>
      simp only [hbim] at h
      by_cases hcp : w.copyOk = false
      · rw [if_pos hcp] at h; simp at h
      rw [if_neg hcp] at h
      cases hra : run_app w.appEnv fuel with
      | none => rw [hra] at h; simp at h
      | some r =>
        obtain ⟨rr, atr⟩ := r
        simp only [hra] at h
        rw [Option.some.injEq, Prod.mk.injEq] at h
        refine ⟨⟨env_json, rfl,
          by simp only [hbim]; exact bool_true_of_not_false hcp⟩, atr, ?_⟩
        rw [h.1]
  · rintro ⟨h1, h2, h3, h4, h6, h7, h8, h9, ⟨env_json, hj, hcfg⟩, atr, hra⟩
    cases hbim : get_bim_file env_json with
    | none =>
      simp only [hbim] at hcfg
      refine ⟨true, [.downloadUpacks, .verifyPaths, .buildTestApp, .loadEnvJson,
        .fixIni, .emulatorLaunch, .waitBoot, .installApk] ++ atr.map .app, ?_⟩
      rw [mainTry, if_neg (by simp [h1]), if_neg (by simp [h2]),
        if_neg (by simp [h3]), if_neg (by simp [h4])]
      simp only [hj]
      rw [if_neg (by simp [h6]), if_neg (by simp [h7]), if_neg (by simp [h8]),
        if_neg (by simp [hcfg]), if_neg (by simp [h9])]
      simp only [hbim]
      rw [hra]
    | some bim_file =>
      simp only [hbim] at hcfg
      refine ⟨true, [.downloadUpacks, .verifyPaths, .buildTestApp, .loadEnvJson,
        .fixIni, .emulatorLaunch, .waitBoot, .installApk, .copyImodel bim_file] ++
        atr.map .app, ?_⟩
      rw [mainTry, if_neg (by simp [h1]), if_neg (by simp [h2]),
        if_neg (by simp [h3]), if_neg (by simp [h4])]
      simp only [hj]
      rw [if_neg (by simp [h6]), if_neg (by simp [h7]), if_neg (by simp [h8]),
        if_neg (by simp [hbim]), if_neg (by simp [h9])]
      simp only [hbim]
      rw [if_neg (by simp [hcfg]), hra]

/-- C9: the process exit status is 0 iff the whole workflow succeeded — every
step of the `try` block ran without raising and `run_app` returned `True`;
every failure path exits 1 (non-zero). -/
theorem main_exit_zero_iff_success (w : World) (fuel : Nat) (c : Nat)
    (tr : List MainAct) (h : main_program w fuel = some (c, tr)) :
    (c = 0 ∨ c = 1) ∧
    (c = 0 ↔
      (w.isDarwin = true ∧ w.downloadOk = true ∧ w.verifyOk = true ∧
        w.buildOk = true ∧ w.fixOk = true ∧ w.emuStartOk = true ∧
        w.bootOk = true ∧ w.installOk = true ∧
        (∃ env_json, w.envJson = some env_json ∧
          (match get_bim_file env_json with
           | some _ => w.copyOk = true
           | none => should_download env_json = true)) ∧
        ∃ atr, run_app w.appEnv fuel = some (.ok true, atr))) := by
  rw [main_program] at h
  cases hmt : mainTry w fuel with
  | none => rw [hmt] at h; simp at h
  | some res =>
    obtain ⟨r, emu, tr'⟩ := res
    cases r with
    | ok b =>
      simp only [hmt] at h
      rw [Option.some.injEq, Prod.mk.injEq] at h
      obtain ⟨hc, -⟩ := h
      cases b with
      | true =>
        simp at hc
        subst hc
        exact ⟨Or.inl rfl,
          iff_of_true rfl ((mainTry_ok_iff w fuel true).mp ⟨emu, tr', hmt⟩)⟩
      | false =>
        simp at hc
        subst hc
        refine ⟨Or.inr rfl, iff_of_false (by omega) ?_⟩
        intro hrhs
        obtain ⟨emu', tr'', hmt'⟩ := (mainTry_ok_iff w fuel true).mpr hrhs
        rw [hmt] at hmt'
        simp at hmt'
    | error e =>
      simp only [hmt] at h
      rw [Option.some.injEq, Prod.mk.injEq] at h
      obtain ⟨hc, -⟩ := h
      subst hc
      refine ⟨Or.inr rfl, iff_of_false (by omega) ?_⟩
      intro hrhs
      obtain ⟨emu', tr'', hmt'⟩ := (mainTry_ok_iff w fuel true).mpr hrhs
      rw [hmt] at hmt'
      simp at hmt'

/-- A fully healthy world: download-mode configuration and a log whose very
first snapshot already contains the marker. -/
def worldSuccess : World :=
  { isDarwin := true, downloadOk := true, verifyOk := true, buildOk := true,
    envJson := some downloadJson, fixOk := true, emuStartOk := true,
    bootOk := true, installOk := true, copyOk := true,
    appEnv := ⟨fun _ => true, fun _ => ⟨fun _ => marker, fun _ => 0⟩⟩ }

/-- C9 witness: the concrete success world exits 0, and the characterization
theorem applies to that run. -/
theorem main_exit_zero_iff_success_witness :
    main_program worldSuccess 1 =
      some (0, [.downloadUpacks, .verifyPaths, .buildTestApp, .loadEnvJson,
        .fixIni, .emulatorLaunch, .waitBoot, .installApk, .app .startApp,
        .app (.poll .readLog), .stopEmulator, .stopAdb]) ∧
    ((0 = 0 ∨ 0 = 1) ∧
      (0 = 0 ↔
        (worldSuccess.isDarwin = true ∧ worldSuccess.downloadOk = true ∧
          worldSuccess.verifyOk = true ∧ worldSuccess.buildOk = true ∧
          worldSuccess.fixOk = true ∧ worldSuccess.emuStartOk = true ∧
          worldSuccess.bootOk = true ∧ worldSuccess.installOk = true ∧
          (∃ env_json, worldSuccess.envJson = some env_json ∧
            (match get_bim_file env_json with
             | some _ => worldSuccess.copyOk = true
             | none => should_download env_json = true)) ∧
          ∃ atr, run_app worldSuccess.appEnv 1 = some (.ok true, atr)))) := by
  have heq : main_program worldSuccess 1 =
      some (0, [.downloadUpacks, .verifyPaths, .buildTestApp, .loadEnvJson,
        .fixIni, .emulatorLaunch, .waitBoot, .installApk, .app .startApp,
        .app (.poll .readLog), .stopEmulator, .stopAdb]) := by decide
  exact ⟨heq, main_exit_zero_iff_success worldSuccess 1 0 _ heq⟩
